import Mathlib

/-!
Verification development for the MedIntel demand-forecasting and
resource-planning engine.  The engine's executable Python module
(`agents/forecasting_agent/service.py`) is not part of the source tree;
the definitions below are modelled from the specification (spec.md) and
the agent's README, which document the algorithms in full.  The frontend
components (`DemandAnalysis.tsx`, `PredictiveOutbreak.tsx`) are present
in the tree and are embedded directly from their TypeScript source.

Numbers carried by the engine (admissions, predictions) are modelled as
rationals: the spec works with exact real-number comparisons ("no
rounding before comparison") and every operation the claims touch is
field arithmetic, `max`, and `floor`.
-/

namespace MedIntel

/-- Modelled from the spec (§4.4): discrete risk tiers LOW / MEDIUM / HIGH. -/
inductive RiskLevel where
  | LOW
  | MEDIUM
  | HIGH
deriving DecidableEq, Repr

/-- Modelled from the spec (§4.4 Risk Classifier, absent `service.py`):
`x < 100` gives LOW, `100 ≤ x < 200` gives MEDIUM, `x ≥ 200` gives HIGH;
the comparison is on the raw predicted value, with no rounding. -/
def classify (x : ℚ) : RiskLevel :=
  if x < 100 then .LOW
  else if x < 200 then .MEDIUM
  else .HIGH

/-- Modelled from the spec (§4.5 Resource Planner, absent `service.py`):
`steps = floor(max(0, predicted_admissions - 100) / 20)`. -/
def steps (x : ℚ) : ℤ :=
  ⌊max 0 (x - 100) / 20⌋

/-- Modelled from the spec (§4.5): `extra_beds = 2 * steps`. -/
def extra_beds (x : ℚ) : ℤ :=
  2 * steps x

/-- Modelled from the spec (§4.5): `extra_doctors = 1 * steps`. -/
def extra_doctors (x : ℚ) : ℤ :=
  1 * steps x

/-- Modelled from the spec (§4.5): `extra_nurses = 2 * steps`. -/
def extra_nurses (x : ℚ) : ℤ :=
  2 * steps x

/-- Modelled from the spec (§3): one realized or synthetic day of admissions
data.  Dates are day counts from the civil epoch 1970-01-01 (the engine only
ever steps dates by whole days and compares them). -/
structure HistoricalRecord where
  date : ℤ
  admissions : ℚ
  pollution_index : ℚ
  is_festival : Bool
  is_flu_season : Bool
deriving DecidableEq, Repr

/-- The per-request contextual flags applied uniformly across the horizon. -/
structure ContextFlags where
  pollution_index : ℚ
  is_festival : Bool
  is_flu_season : Bool
deriving DecidableEq, Repr

/-- Days-to-civil-date conversion (year, month, day) for the calendar
features; standard era-based algorithm on day counts from 1970-01-01. -/
def civilFromDays (z0 : ℤ) : ℤ × ℤ × ℤ :=
  let z := z0 + 719468
  let era := (if 0 ≤ z then z else z - 146096).ediv 146097
  let doe := z - era * 146097
  let yoe := (doe - doe.ediv 1460 + doe.ediv 36524 - doe.ediv 146096).ediv 365
  let y := yoe + era * 400
  let doy := doe - (365 * yoe + yoe.ediv 4 - yoe.ediv 100)
  let mp := (5 * doy + 2).ediv 153
  let d := doy - (153 * mp + 2).ediv 5 + 1
  let m := mp + (if mp < 10 then 3 else -9)
  (if m ≤ 2 then y + 1 else y, m, d)

/-- Day of week, 0 = Monday .. 6 = Sunday (1970-01-01 was a Thursday). -/
def dayOfWeek (z : ℤ) : ℤ :=
  (z + 3).emod 7

def monthOf (z : ℤ) : ℤ :=
  (civilFromDays z).2.1

def dayOfMonthOf (z : ℤ) : ℤ :=
  (civilFromDays z).2.2

def quarterOf (z : ℤ) : ℤ :=
  (monthOf z - 1).ediv 3 + 1

/-- Modelled from the spec (§3): the fixed 13-feature vector.  The spec's
`rolling_7_std` is the square root of the population variance; the vector
carries the variance `rolling_7_var` (its square), since square root on the
non-negative rationals leaves ℚ — totality and the window semantics are
unaffected, as the real square root is total on non-negative arguments. -/
structure FeatureVector where
  day_of_week : ℤ
  month : ℤ
  day_of_month : ℤ
  quarter : ℤ
  pollution_index : ℚ
  is_festival : Bool
  is_flu_season : Bool
  lag_1 : ℚ
  lag_7 : ℚ
  lag_30 : ℚ
  rolling_7_mean : ℚ
  rolling_7_var : ℚ
  rolling_30_mean : ℚ
deriving DecidableEq, Repr

/-- Modelled from the spec (§4.1): `lag_k` is the admissions value exactly
`k` days before the target date — with records on consecutive days this is
the `k`-th element from the end of the working history; when fewer than `k`
prior days exist, the earliest available value is used instead. -/
def lagK (adm : List ℚ) (k : ℕ) : Option ℚ :=
  if k ≤ adm.length then adm[adm.length - k]? else adm.head?

/-- The trailing `n` elements of a list (all of it when shorter than `n`). -/
def lastN (adm : List ℚ) (n : ℕ) : List ℚ :=
  adm.drop (adm.length - n)

/-- Modelled from the spec (§4.1): arithmetic mean over the trailing `w`
available days (over whatever is available when fewer than `w`). -/
def rollingMean (adm : List ℚ) (w : ℕ) : ℚ :=
  let window := lastN adm w
  window.sum / window.length

/-- Modelled from the spec (§4.1): population variance (square of the
population standard deviation) over the trailing `w` available days. -/
def rollingVar (adm : List ℚ) (w : ℕ) : ℚ :=
  let window := lastN adm w
  let m := window.sum / window.length
  (window.map (fun a => (a - m) ^ 2)).sum / window.length

/-- Modelled from the spec (§4.1 Feature Builder, absent `service.py`):
calendar features from the target date, contextual flags from the request,
lag and rolling features from the working history (admissions in date
order, ending the day before the target date); lags default to 0 when the
history is completely empty (§7, unknown-hospital fallback). -/
def buildFeatures (hist : List HistoricalRecord) (day : ℤ) (ctx : ContextFlags) :
    FeatureVector :=
  let adm := hist.map (fun r => r.admissions)
  { day_of_week := dayOfWeek day
    month := monthOf day
    day_of_month := dayOfMonthOf day
    quarter := quarterOf day
    pollution_index := ctx.pollution_index
    is_festival := ctx.is_festival
    is_flu_season := ctx.is_flu_season
    lag_1 := (lagK adm 1).getD 0
    lag_7 := (lagK adm 7).getD 0
    lag_30 := (lagK adm 30).getD 0
    rolling_7_mean := rollingMean adm 7
    rolling_7_var := rollingVar adm 7
    rolling_30_mean := rollingMean adm 30 }

/-- Modelled from the spec (§4.3.c): the synthetic HistoricalRecord appended
to the working history after a day is predicted. -/
def syntheticRecord (day : ℤ) (value : ℚ) (ctx : ContextFlags) : HistoricalRecord :=
  { date := day
    admissions := value
    pollution_index := ctx.pollution_index
    is_festival := ctx.is_festival
    is_flu_season := ctx.is_flu_season }

/-- Modelled from the spec (§4.3.a–c, absent `service.py`): one step of the
Recursive Forecaster — build features from the working history, call the
predictor, clamp to `≥ 0`, and append the synthetic record.  Returns the
emitted (clamped) prediction and the extended working history. -/
def stepDay (P : FeatureVector → ℚ) (ctx : ContextFlags)
    (hist : List HistoricalRecord) (day : ℤ) : ℚ × List HistoricalRecord :=
  let fv := buildFeatures hist day ctx
  let v := max 0 (P fv)
  (v, hist ++ [syntheticRecord day v ctx])

/-- Modelled from the spec (§4.3, absent `service.py`): the sequential
forecast loop, emitting `(date, predicted_admissions)` pairs for
`day, day+1, …`, each step feeding its own clamped prediction back into the
working history before the next feature vector is built. -/
def runDays (P : FeatureVector → ℚ) (ctx : ContextFlags) :
    List HistoricalRecord → ℤ → ℕ → List (ℤ × ℚ)
  | _, _, 0 => []
  | hist, day, n + 1 =>
    let r := stepDay P ctx hist day
    (day, r.1) :: runDays P ctx r.2 (day + 1) n

/-- The working history after the first `n` days of the loop have run. -/
def histAfter (P : FeatureVector → ℚ) (ctx : ContextFlags) :
    List HistoricalRecord → ℤ → ℕ → List HistoricalRecord
  | hist, _, 0 => hist
  | hist, day, n + 1 => histAfter P ctx (stepDay P ctx hist day).2 (day + 1) n

/-- Modelled from the spec (§4.6): left-to-right maximum scan over the
`(date, value)` pairs, replacing the current peak only on a strictly larger
value, so the first occurrence wins on ties. -/
def peakFold (p : ℤ × ℚ) : List (ℤ × ℚ) → ℤ × ℚ
  | [] => p
  | q :: rest => peakFold (if p.2 < q.2 then q else p) rest

/-- Modelled from the spec (§4.6): the `(peak_day, peak_load)` pair — the
day with maximum predicted admissions, first occurrence winning on ties. -/
def peakOf : List (ℤ × ℚ) → Option (ℤ × ℚ)
  | [] => none
  | p :: rest => some (peakFold p rest)

def listMin : List ℚ → ℚ
  | [] => 0
  | h :: t => t.foldl min h

def listMax : List ℚ → ℚ
  | [] => 0
  | h :: t => t.foldl max h

/-- Modelled from the spec (§3, §6): the per-request summary statistics. -/
structure Summary where
  avg_daily_admissions : ℚ
  min_daily_admissions : ℚ
  max_daily_admissions : ℚ
  total_admissions_period : ℚ
  high_risk_days : ℕ
  medium_risk_days : ℕ
  low_risk_days : ℕ
deriving DecidableEq, Repr

/-- Modelled from the spec (§4.6): mean / min / max / sum of the predicted
admissions plus per-tier day counts. -/
def mkSummary (preds : List (ℤ × ℚ)) : Summary :=
  let vs := preds.map Prod.snd
  { avg_daily_admissions := vs.sum / vs.length
    min_daily_admissions := listMin vs
    max_daily_admissions := listMax vs
    total_admissions_period := vs.sum
    high_risk_days := (vs.filter (fun v => classify v == .HIGH)).length
    medium_risk_days := (vs.filter (fun v => classify v == .MEDIUM)).length
    low_risk_days := (vs.filter (fun v => classify v == .LOW)).length }

/-- Modelled from the spec (§6): the forecast request.  `start_date` holds
the result of parsing the YYYY-MM-DD string: `none` models a malformed
(unparseable) date, `some d` the parsed day number. -/
structure ForecastRequest where
  hospital_id : String
  start_date : Option ℤ
  horizon_days : ℤ
  pollution_index : ℚ
  is_festival : Bool
  is_flu_season : Bool
deriving DecidableEq, Repr

/-- Modelled from the spec (§3): one output day. -/
structure ForecastDay where
  date : ℤ
  predicted_admissions : ℚ
  risk_level : RiskLevel
  extra_beds : ℤ
  extra_doctors : ℤ
  extra_nurses : ℤ
deriving DecidableEq, Repr

/-- Modelled from the spec (§3, §6): the full forecast response;
`forecast_date` is the generation timestamp supplied by the clock. -/
structure ForecastResult where
  hospital_id : String
  forecast_date : ℤ
  predictions : List ForecastDay
  peak_day : Option ℤ
  peak_load : ℚ
  summary : Summary
deriving DecidableEq, Repr

/-- Modelled from the spec (§7): the typed failure surfaced by validation. -/
inductive ServiceError where
  | ValidationError (msg : String)
deriving DecidableEq, Repr

/-- Per-day post-processing: risk tier and resource extras for one
emitted prediction. -/
def toForecastDay (p : ℤ × ℚ) : ForecastDay :=
  { date := p.1
    predicted_admissions := p.2
    risk_level := classify p.2
    extra_beds := extra_beds p.2
    extra_doctors := extra_doctors p.2
    extra_nurses := extra_nurses p.2 }

/-- Modelled from the spec (§4.6, §6, §7, absent `service.py`): the public
forecast operation.  Validation (malformed `start_date`, `horizon_days`
outside [1, 90], empty `hospital_id`) fails before the predictor is ever
consulted; otherwise the Recursive Forecaster runs, each day is classified
and resourced, and peak and summary are computed.  `histStore` is the
read-only History Store, `now` the generation timestamp. -/
def requestPreds (P : FeatureVector → ℚ)
    (histStore : String → List HistoricalRecord) (req : ForecastRequest)
    (sd : ℤ) : List (ℤ × ℚ) :=
  runDays P ⟨req.pollution_index, req.is_festival, req.is_flu_season⟩
    (histStore req.hospital_id) sd req.horizon_days.toNat

/-- The response assembled for a validated request whose parsed start date
is `sd`. -/
def buildResult (P : FeatureVector → ℚ)
    (histStore : String → List HistoricalRecord) (now : ℤ)
    (req : ForecastRequest) (sd : ℤ) : ForecastResult :=
  let preds := requestPreds P histStore req sd
  { hospital_id := req.hospital_id
    forecast_date := now
    predictions := preds.map toForecastDay
    peak_day := (peakOf preds).map Prod.fst
    peak_load := ((peakOf preds).map Prod.snd).getD 0
    summary := mkSummary preds }

def forecastService (P : FeatureVector → ℚ)
    (histStore : String → List HistoricalRecord) (now : ℤ)
    (req : ForecastRequest) : Except ServiceError ForecastResult :=
  match req.start_date with
  | none => .error (.ValidationError "malformed start_date")
  | some sd =>
    if req.horizon_days < 1 ∨ 90 < req.horizon_days then
      .error (.ValidationError "horizon_days outside [1,90]")
    else if req.hospital_id = "" then
      .error (.ValidationError "empty hospital_id")
    else
      .ok (buildResult P histStore now req sd)

/-- One forecast data point of the frontend Demand Analysis component
(`DemandAnalysis.tsx`); only the fields its helpers read. -/
structure ForecastDataItem where
  date : String
  predicted_demand : ℚ
deriving DecidableEq, Repr

/-- The slice of `DemandResult` (`DemandAnalysis.tsx`) the helpers read:
`forecast_data` is `none` when the field is null/undefined. -/
structure DemandResult where
  forecast_data : Option (List ForecastDataItem)
deriving DecidableEq, Repr

/-- JavaScript `Math.max(...list)`: maximum with `-Infinity` (modelled as
`⊥` in `WithBot ℚ`) as the value on no arguments. -/
def jsMathMax (l : List ℚ) : WithBot ℚ :=
  l.foldr (fun a m => max (a : WithBot ℚ) m) ⊥

/-- Frontend `DemandAnalysis.tsx` `getTotalPredictedDemand`: 0 when `result` or its
`forecast_data` is missing, else the sum of `predicted_demand` (a `reduce`
with initial value 0). -/
def getTotalPredictedDemand (result : Option DemandResult) : ℚ :=
  match result with
  | none => 0
  | some r =>
    match r.forecast_data with
    | none => 0
    | some l => l.foldl (fun sum item => sum + item.predicted_demand) 0

/-- Frontend `DemandAnalysis.tsx` `getAverageDailyDemand`: 0 when `forecast_data` is
missing or empty, else total divided by length. -/
def getAverageDailyDemand (result : Option DemandResult) : ℚ :=
  match result with
  | none => 0
  | some r =>
    match r.forecast_data with
    | none => 0
    | some l =>
      if l.length = 0 then 0
      else getTotalPredictedDemand result / l.length

/-- Frontend `DemandAnalysis.tsx` `getPeakDemand`: 0 when `forecast_data` is
null/undefined (the guard does not test emptiness), else
`Math.max(...forecast_data.map(item => item.predicted_demand))` — which is
`-Infinity` (`⊥`) on an empty array. -/
def getPeakDemand (result : Option DemandResult) : WithBot ℚ :=
  match result with
  | none => 0
  | some r =>
    match r.forecast_data with
    | none => 0
    | some l => jsMathMax (l.map (fun item => item.predicted_demand))

/-- JavaScript strings of `PredictiveOutbreak.tsx` are embedded as their
character lists, so every string operation below is structural recursion
the kernel can evaluate.  Whitespace test for `trim`. -/
def jsIsWhitespace (c : Char) : Bool :=
  c == ' ' || c == '\t' || c == '\n' || c == '\r'

/-- JavaScript `String.prototype.trim`. -/
def jsTrim (s : List Char) : List Char :=
  ((s.dropWhile jsIsWhitespace).reverse.dropWhile jsIsWhitespace).reverse

/-- JavaScript `String.prototype.split` with a one-character separator:
always returns at least one (possibly empty) field. -/
def jsSplit (sep : Char) : List Char → List (List Char)
  | [] => [[]]
  | c :: rest =>
    match jsSplit sep rest with
    | [] => [[]]
    | w :: ws => if c = sep then [] :: w :: ws else (c :: w) :: ws

/-- Decimal value of a digit run. -/
def digitsToNat (l : List Char) : ℕ :=
  l.foldl (fun acc c => 10 * acc + (c.toNat - 48)) 0

/-- JavaScript `parseInt` on a decimal string: trim, optional sign, then
the longest digit prefix; `none` models `NaN` (no digits at all). -/
def jsParseInt (s : List Char) : Option ℤ :=
  let t := jsTrim s
  let signDigits : ℤ × List Char :=
    match t with
    | '-' :: rest => (-1, rest.takeWhile Char.isDigit)
    | '+' :: rest => (1, rest.takeWhile Char.isDigit)
    | _ => (1, t.takeWhile Char.isDigit)
  if signDigits.2 = [] then none
  else some (signDigits.1 * (digitsToNat signDigits.2 : ℤ))

/-- One parsed manual-entry row of `PredictiveOutbreak.tsx` `handleSubmit`:
`cases` is the `parseInt` result (`none` = NaN); `aqi` is absent
(outer `none` = the spread is skipped) when no AQI data was supplied,
otherwise the parsed value (inner `none` = NaN). -/
structure CaseEntry where
  date : List Char
  cases : Option ℤ
  aqi : Option (Option ℤ)
deriving DecidableEq, Repr

deriving instance DecidableEq for Except

/-- Frontend `PredictiveOutbreak.tsx`: the AQI for row `idx` —
`aqiData ? parseInt(aqiData.split('\n')[idx]?.split(',')[1] || '0') :
undefined` (an empty `aqiData` is falsy, a missing or empty cell falls
back to the string "0"). -/
def aqiFor (aqiData : List Char) (idx : ℕ) : Option (Option ℤ) :=
  if aqiData = [] then none
  else
    let cell := ((jsSplit ',' ((jsSplit '\n' aqiData).getD idx [])).getD 1 [])
    some (jsParseInt (if cell = [] then ['0'] else cell))

/-- Frontend `PredictiveOutbreak.tsx` `handleSubmit`, manual format: map each line to
`{date, cases, aqi}` after splitting on commas and trimming; a line with
fewer than two comma-separated parts aborts with the invalid-format error
(first failing line wins, as the `throw` aborts the `map`). -/
def parseManualEntries (aqiData : List Char) :
    List (List Char) → ℕ → Except String (List CaseEntry)
  | [], _ => .ok []
  | line :: rest, idx =>
    let parts := (jsSplit ',' line).map jsTrim
    if parts.length < 2 then
      .error ("Invalid format on line " ++ toString (idx + 1) ++
        ". Expected: date,cases")
    else
      match parseManualEntries aqiData rest (idx + 1) with
      | .error m => .error m
      | .ok es =>
        .ok ({ date := parts.getD 0 []
               cases := jsParseInt (parts.getD 1 [])
               aqi := aqiFor aqiData idx } :: es)

/-- Frontend `PredictiveOutbreak.tsx` `handleSubmit`:
`casesData.trim().split('\n').filter(line => line.trim())` (a line is kept
when its trim is non-empty, i.e. truthy). -/
def manualLines (casesData : List Char) : List (List Char) :=
  (jsSplit '\n' (jsTrim casesData)).filter (fun line => jsTrim line ≠ [])

/-- Outcome of `PredictiveOutbreak.tsx` `handleSubmit`: either the error
state is set (a thrown message caught by the handler) or the POST to the
outbreak-assessment endpoint is issued with the parsed payload. -/
inductive SubmitOutcome where
  | errorSet (msg : String)
  | postIssued (cases_data : List CaseEntry)
deriving DecidableEq, Repr

/-- Frontend `PredictiveOutbreak.tsx` `handleSubmit`, manual data format: parse the
rows, reject fewer than 14 with the minimum-data error before any request
is sent, otherwise issue the POST. -/
def handleSubmitManual (casesData aqiData : List Char) : SubmitOutcome :=
  match parseManualEntries aqiData (manualLines casesData) 0 with
  | .error m => .errorSet m
  | .ok cases_data =>
    if cases_data.length < 14 then
      .errorSet "Need at least 14 days of data for outbreak analysis"
    else
      .postIssued cases_data

theorem steps_mono {x y : ℚ} (h : x ≤ y) : steps x ≤ steps y := by
  unfold steps
  apply Int.floor_le_floor
  apply div_le_div_of_nonneg_right _ (by norm_num)
  exact max_le_max le_rfl (by linarith)

theorem steps_at_base : steps 100 = 0 := by
  unfold steps
  norm_num

theorem steps_at_140 : steps 140 = 2 := by
  unfold steps
  have h : max (0 : ℚ) (140 - 100) = 40 := by norm_num
  rw [h]
  norm_num

theorem steps_linear (n : ℕ) : steps (100 + 20 * n) = n := by
  unfold steps
  have h : max (0 : ℚ) (100 + 20 * n - 100) = 20 * n := by
    rw [show (100 : ℚ) + 20 * n - 100 = 20 * n by ring]
    exact max_eq_right (by positivity)
  rw [h]
  have h2 : (20 : ℚ) * n / 20 = (n : ℚ) := by ring
  rw [h2]
  exact_mod_cast Int.floor_natCast n

/-- C1: the Risk Classifier returns LOW exactly when `x < 100`, MEDIUM
exactly when `100 ≤ x < 200`, HIGH exactly when `x ≥ 200`, with no rounding
before the comparison; in particular `classify 99.999 = LOW`,
`classify 100 = MEDIUM`, `classify 199.999 = MEDIUM`, `classify 200 = HIGH`. -/
theorem risk_classifier_boundaries (x : ℚ) :
    (classify x = .LOW ↔ x < 100) ∧
    (classify x = .MEDIUM ↔ 100 ≤ x ∧ x < 200) ∧
    (classify x = .HIGH ↔ 200 ≤ x) ∧
    classify (99999 / 1000) = .LOW ∧
    classify 100 = .MEDIUM ∧
    classify (199999 / 1000) = .MEDIUM ∧
    classify 200 = .HIGH := by
  refine ⟨?_, ?_, ?_, ?_, ?_, ?_, ?_⟩
  · unfold classify
    split_ifs with h1 h2 <;> simp_all <;> linarith
  · unfold classify
    split_ifs with h1 h2 <;> simp_all
    all_goals first
    | (constructor <;> linarith)
    | linarith
    | (intro h3; linarith)
  · unfold classify
    split_ifs with h1 h2 <;> simp_all
    all_goals linarith
  · unfold classify
    norm_num
  · unfold classify
    norm_num
  · unfold classify
    norm_num
  · unfold classify
    norm_num

/-- C2: the Resource Planner computes `extra_beds = 2 * ⌊max 0 (x-100)/20⌋`,
`extra_doctors = 1 * ⌊…⌋`, `extra_nurses = 2 * ⌊…⌋`; at `x = 100` all extras
are 0; at `x = 140` they are 4, 2, 4; each output is non-decreasing in `x`,
and there is no upper cap (`x = 100 + 20n` yields `extra_beds = 2n`). -/
theorem resource_planner_rule (x y : ℚ) (hx : 0 ≤ x) (hxy : x ≤ y) :
    extra_beds x = 2 * ⌊max 0 (x - 100) / 20⌋ ∧
    extra_doctors x = 1 * ⌊max 0 (x - 100) / 20⌋ ∧
    extra_nurses x = 2 * ⌊max 0 (x - 100) / 20⌋ ∧
    (extra_beds 100 = 0 ∧ extra_doctors 100 = 0 ∧ extra_nurses 100 = 0) ∧
    (extra_beds 140 = 4 ∧ extra_doctors 140 = 2 ∧ extra_nurses 140 = 4) ∧
    (extra_beds x ≤ extra_beds y ∧ extra_doctors x ≤ extra_doctors y ∧
      extra_nurses x ≤ extra_nurses y) ∧
    (∀ n : ℕ, extra_beds (100 + 20 * n) = 2 * n) := by
  have hm := steps_mono hxy
  refine ⟨rfl, rfl, rfl, ?_, ?_, ?_, ?_⟩
  · unfold extra_beds extra_doctors extra_nurses
    rw [steps_at_base]
    norm_num
  · unfold extra_beds extra_doctors extra_nurses
    rw [steps_at_140]
    norm_num
  · unfold extra_beds extra_doctors extra_nurses
    refine ⟨by linarith, by linarith, by linarith⟩
  · intro n
    unfold extra_beds
    rw [steps_linear]

/-- Witness for C2 at `x = 100`, `y = 140`. -/
theorem resource_planner_rule_witness :
    (0 : ℚ) ≤ 100 ∧ (100 : ℚ) ≤ 140 ∧
    (extra_beds 140 = 4 ∧ extra_doctors 140 = 2 ∧ extra_nurses 140 = 4) :=
  ⟨by norm_num, by norm_num,
    (resource_planner_rule 100 140 (by norm_num) (by norm_num)).2.2.2.2.1⟩

theorem runDays_length (P : FeatureVector → ℚ) (ctx : ContextFlags) :
    ∀ (n : ℕ) (hist : List HistoricalRecord) (d : ℤ),
      (runDays P ctx hist d n).length = n := by
  intro n
  induction n with
  | zero => intro hist d; rfl
  | succ m ih =>
    intro hist d
    simp only [runDays, List.length_cons, ih]

theorem histAfter_zero (P : FeatureVector → ℚ) (ctx : ContextFlags)
    (hist : List HistoricalRecord) (d : ℤ) :
    histAfter P ctx hist d 0 = hist := rfl

theorem histAfter_succ_step (P : FeatureVector → ℚ) (ctx : ContextFlags) :
    ∀ (i : ℕ) (hist : List HistoricalRecord) (d : ℤ),
      histAfter P ctx hist d (i + 1) =
        (stepDay P ctx (histAfter P ctx hist d i) (d + (i : ℤ))).2 := by
  intro i
  induction i with
  | zero =>
    intro hist d
    simp [histAfter]
  | succ m ih =>
    intro hist d
    show histAfter P ctx (stepDay P ctx hist d).2 (d + 1) (m + 1) = _
    rw [ih]
    have harith : d + 1 + (m : ℤ) = d + ((m : ℕ) + 1 : ℕ) := by push_cast; ring
    rw [harith]
    rfl

theorem runDays_getElem (P : FeatureVector → ℚ) (ctx : ContextFlags) :
    ∀ (i n : ℕ) (hist : List HistoricalRecord) (d : ℤ), i < n →
      (runDays P ctx hist d n)[i]? =
        some (d + (i : ℤ),
          (stepDay P ctx (histAfter P ctx hist d i) (d + (i : ℤ))).1) := by
  intro i
  induction i with
  | zero =>
    intro n hist d hn
    match n, hn with
    | m + 1, _ =>
      simp [runDays, histAfter]
  | succ j ih =>
    intro n hist d hn
    match n, hn with
    | m + 1, hn =>
      have hj : j < m := by omega
      have key := ih m (stepDay P ctx hist d).2 (d + 1) hj
      have hcons : (runDays P ctx hist d (m + 1))[j + 1]? =
          (runDays P ctx (stepDay P ctx hist d).2 (d + 1) m)[j]? := by
        simp [runDays]
      rw [hcons, key]
      have harith : d + 1 + (j : ℤ) = d + ((j : ℕ) + 1 : ℕ) := by push_cast; ring
      rw [harith]
      rfl

theorem runDays_map_fst (P : FeatureVector → ℚ) (ctx : ContextFlags) :
    ∀ (n : ℕ) (hist : List HistoricalRecord) (d : ℤ),
      (runDays P ctx hist d n).map Prod.fst =
        (List.range n).map (fun i : ℕ => d + (i : ℤ)) := by
  intro n
  induction n with
  | zero => intro hist d; rfl
  | succ m ih =>
    intro hist d
    have hrange : (List.range (m + 1)).map (fun i : ℕ => d + (i : ℤ)) =
        d :: (List.range m).map (fun i : ℕ => (d + 1) + (i : ℤ)) := by
      rw [List.range_succ_eq_map, List.map_cons, List.map_map]
      congr 1
      · simp
      · congr 1
        funext i
        simp only [Function.comp_apply]
        push_cast
        ring
    rw [hrange]
    simp only [runDays, List.map_cons]
    congr 1
    exact ih _ _

theorem histAfter_eq_append (P : FeatureVector → ℚ) (ctx : ContextFlags) :
    ∀ (n : ℕ) (hist : List HistoricalRecord) (d : ℤ),
      histAfter P ctx hist d n =
        hist ++ (runDays P ctx hist d n).map (fun p => syntheticRecord p.1 p.2 ctx) := by
  intro n
  induction n with
  | zero => intro hist d; simp [histAfter, runDays]
  | succ m ih =>
    intro hist d
    show histAfter P ctx (stepDay P ctx hist d).2 (d + 1) m = _
    rw [ih]
    simp only [stepDay, runDays, List.map_cons, List.append_assoc]
    rfl

theorem runDays_nonneg (P : FeatureVector → ℚ) (ctx : ContextFlags) :
    ∀ (n : ℕ) (hist : List HistoricalRecord) (d : ℤ) (p : ℤ × ℚ),
      p ∈ runDays P ctx hist d n → 0 ≤ p.2 := by
  intro n
  induction n with
  | zero => intro hist d p hp; simp [runDays] at hp
  | succ m ih =>
    intro hist d p hp
    rw [runDays, List.mem_cons] at hp
    rcases hp with h | h
    · rw [h]
      exact le_max_left 0 _
    · exact ih _ _ _ h

/-- C5: whenever the predictor returns a negative raw value for a day, the
emitted prediction for that day is 0; every emitted prediction is the
clamp `max 0 (raw)` of the raw prediction, and exactly that clamped value
(the emitted value, not the raw one) is appended to the working history
that every later day's features are built from; consequently every emitted
`predicted_admissions` is ≥ 0. -/
theorem clamping_feeds_forward (P : FeatureVector → ℚ) (ctx : ContextFlags)
    (hist : List HistoricalRecord) (d : ℤ) (n i : ℕ) (hi : i < n) :
    (∀ p ∈ runDays P ctx hist d n, 0 ≤ p.2) ∧
    (runDays P ctx hist d n)[i]? =
      some (d + (i : ℤ),
        max 0 (P (buildFeatures (histAfter P ctx hist d i) (d + (i : ℤ)) ctx))) ∧
    histAfter P ctx hist d (i + 1) =
      histAfter P ctx hist d i ++
        [syntheticRecord (d + (i : ℤ))
          (max 0 (P (buildFeatures (histAfter P ctx hist d i) (d + (i : ℤ)) ctx)))
          ctx] ∧
    (P (buildFeatures (histAfter P ctx hist d i) (d + (i : ℤ)) ctx) < 0 →
      (runDays P ctx hist d n)[i]? = some (d + (i : ℤ), 0)) := by
  have hget := runDays_getElem P ctx i n hist d hi
  have hstep : (stepDay P ctx (histAfter P ctx hist d i) (d + (i : ℤ))).1 =
      max 0 (P (buildFeatures (histAfter P ctx hist d i) (d + (i : ℤ)) ctx)) := rfl
  refine ⟨fun p hp => runDays_nonneg P ctx n hist d p hp, ?_, ?_, ?_⟩
  · rw [hget, hstep]
  · rw [histAfter_succ_step]
    rfl
  · intro hneg
    rw [hget, hstep]
    have : max 0 (P (buildFeatures (histAfter P ctx hist d i) (d + (i : ℤ)) ctx)) = 0 :=
      max_eq_left (le_of_lt hneg)
    rw [this]

/-- Witness for C5: a predictor that always returns −5 emits 0 on the first
day of a one-day horizon. -/
theorem clamping_feeds_forward_witness :
    (runDays (fun _ => (-5 : ℚ)) ⟨120, false, false⟩ [] 0 1)[0]? = some (0, 0) := by
  have h := clamping_feeds_forward (fun _ => (-5 : ℚ)) ⟨120, false, false⟩ [] 0 1 0
    (by norm_num)
  have hneg : (fun _ => (-5 : ℚ))
      (buildFeatures (histAfter (fun _ => (-5 : ℚ)) ⟨120, false, false⟩ [] 0 0)
        (0 + ((0 : ℕ) : ℤ)) ⟨120, false, false⟩) < 0 := by norm_num
  have := h.2.2.2 hneg
  simpa using this

theorem histAfter_adm_split (P : FeatureVector → ℚ) (ctx : ContextFlags)
    (hist : List HistoricalRecord) (d : ℤ) (n : ℕ) :
    (histAfter P ctx hist d n).map (fun r => r.admissions) =
      hist.map (fun r => r.admissions) ++ (runDays P ctx hist d n).map Prod.snd := by
  rw [histAfter_eq_append, List.map_append, List.map_map]
  rfl

/-- C3: for a horizon of at least 8 days the per-day predictions are produced
strictly in date order (`start, start+1, …`); each day's clamped prediction is
appended to the working history before the next day runs; and the feature
vector built for day 8 (from the working history left by days 1–7) has
`lag_7` equal to the prediction emitted for day 1. -/
theorem recursive_feeding (P : FeatureVector → ℚ) (ctx : ContextFlags)
    (hist : List HistoricalRecord) (d : ℤ) (n : ℕ) (h8 : 8 ≤ n) :
    ((runDays P ctx hist d n).map Prod.fst =
      (List.range n).map (fun i : ℕ => d + (i : ℤ))) ∧
    (∀ i : ℕ, i < n →
      histAfter P ctx hist d (i + 1) =
        histAfter P ctx hist d i ++
          [syntheticRecord (d + (i : ℤ))
            (((runDays P ctx hist d n)[i]?.getD (0, 0)).2) ctx]) ∧
    (∃ v1 : ℚ, (runDays P ctx hist d n)[0]? = some (d, v1) ∧
      (buildFeatures (histAfter P ctx hist d 7) (d + 7) ctx).lag_7 = v1) := by
  refine ⟨runDays_map_fst P ctx n hist d, ?_, ?_⟩
  · intro i hi
    rw [runDays_getElem P ctx i n hist d hi]
    rw [histAfter_succ_step]
    rfl
  · refine ⟨(stepDay P ctx hist d).1, ?_, ?_⟩
    · have h0 := runDays_getElem P ctx 0 n hist d (by omega)
      simpa [histAfter] using h0
    · have hadm := histAfter_adm_split P ctx hist d 7
      have hlen : ((histAfter P ctx hist d 7).map (fun r => r.admissions)).length =
          hist.length + 7 := by
        rw [hadm, List.length_append, List.length_map, List.length_map,
          runDays_length]
      show (lagK ((histAfter P ctx hist d 7).map (fun r => r.admissions)) 7).getD 0 =
        (stepDay P ctx hist d).1
      rw [lagK, if_pos (by omega : 7 ≤ ((histAfter P ctx hist d 7).map
        (fun r => r.admissions)).length), hlen]
      have hidx : hist.length + 7 - 7 = hist.length := by omega
      rw [hidx, hadm,
        List.getElem?_append_right (by simp : (hist.map (fun r => r.admissions)).length ≤ hist.length)]
      simp only [List.length_map, Nat.sub_self]
      have h0 := runDays_getElem P ctx 0 7 hist d (by omega)
      rw [List.getElem?_map, h0]
      simp [histAfter]

/-- Witness for C3: the hypothesis `8 ≤ n` discharged at `n = 8` with a
constant predictor on an empty seed history. -/
theorem recursive_feeding_witness :
    ∃ v1 : ℚ,
      (runDays (fun _ => (50 : ℚ)) ⟨120, false, false⟩ [] 0 8)[0]? = some (0, v1) ∧
      (buildFeatures (histAfter (fun _ => (50 : ℚ)) ⟨120, false, false⟩ [] 0 7)
        (0 + 7) ⟨120, false, false⟩).lag_7 = v1 :=
  (recursive_feeding (fun _ => (50 : ℚ)) ⟨120, false, false⟩ [] 0 8
    (by norm_num)).2.2

theorem peakFold_mem : ∀ (l : List (ℤ × ℚ)) (p : ℤ × ℚ), peakFold p l ∈ p :: l := by
  intro l
  induction l with
  | nil => intro p; simp [peakFold]
  | cons q rest ih =>
    intro p
    rw [peakFold]
    split_ifs with h
    · rcases List.mem_cons.mp (ih q) with h2 | h2
      · simp [h2]
      · simp [h2]
    · rcases List.mem_cons.mp (ih p) with h2 | h2
      · simp [h2]
      · simp [h2]

theorem peakFold_ge : ∀ (l : List (ℤ × ℚ)) (p q : ℤ × ℚ),
    q ∈ p :: l → q.2 ≤ (peakFold p l).2 := by
  intro l
  induction l with
  | nil =>
    intro p q hq
    simp at hq
    simp [peakFold, hq]
  | cons a rest ih =>
    intro p q hq
    rw [peakFold]
    have hacc : p.2 ≤ (if p.2 < a.2 then a else p).2 ∧
        a.2 ≤ (if p.2 < a.2 then a else p).2 := by
      split_ifs with h
      · exact ⟨le_of_lt h, le_rfl⟩
      · exact ⟨le_rfl, le_of_not_lt h⟩
    have haccle := ih (if p.2 < a.2 then a else p) (if p.2 < a.2 then a else p)
      (List.mem_cons_self _ _)
    rcases List.mem_cons.mp hq with h | h
    · subst h
      exact le_trans hacc.1 haccle
    · rcases List.mem_cons.mp h with h2 | h2
      · subst h2
        exact le_trans hacc.2 haccle
      · exact ih _ _ (List.mem_cons.mpr (Or.inr h2))

theorem peakFold_eq_or_lt : ∀ (l : List (ℤ × ℚ)) (p : ℤ × ℚ),
    peakFold p l = p ∨ p.2 < (peakFold p l).2 := by
  intro l
  induction l with
  | nil => intro p; left; rfl
  | cons a rest ih =>
    intro p
    rw [peakFold]
    split_ifs with h
    · rcases ih a with h2 | h2
      · right; rw [h2]; exact h
      · right; exact lt_trans h h2
    · exact ih p

theorem peakFold_first : ∀ (l : List (ℤ × ℚ)) (p : ℤ × ℚ),
    (p :: l).Pairwise (fun a b => a.1 < b.1) →
    ∀ q ∈ p :: l, q.2 = (peakFold p l).2 → (peakFold p l).1 ≤ q.1 := by
  intro l
  induction l with
  | nil =>
    intro p _ q hq _
    simp at hq
    simp [peakFold, hq]
  | cons a rest ih =>
    intro p hpw q hq hval
    rw [List.pairwise_cons] at hpw
    obtain ⟨hphead, hpw2⟩ := hpw
    rw [peakFold] at hval ⊢
    split_ifs with h
    · -- accumulator becomes a
      rcases List.mem_cons.mp hq with rfl | hq2
      · -- q = p: impossible, the fold value is at least a.2 > p.2
        have : a.2 ≤ (peakFold a rest).2 := peakFold_ge rest a a (List.mem_cons_self _ _)
        rw [if_pos h] at hval
        linarith [hval ▸ this]
      · rw [if_pos h] at hval
        exact ih a hpw2 q hq2 hval
    · -- accumulator stays p
      rw [if_neg h] at hval
      rcases List.mem_cons.mp hq with rfl | hq2
      · have hpw3 : (q :: rest).Pairwise (fun x y => x.1 < y.1) := by
          rw [List.pairwise_cons]
          rw [List.pairwise_cons] at hpw2
          exact ⟨fun b hb => hphead b (List.mem_cons.mpr (Or.inr hb)), hpw2.2⟩
        exact ih q hpw3 q (List.mem_cons_self _ _) hval
      · rcases List.mem_cons.mp hq2 with rfl | hq3
        · -- q = a is a tie with the kept accumulator value
          rcases peakFold_eq_or_lt rest p with h2 | h2
          · rw [h2]
            exact le_of_lt (hphead q (List.mem_cons_self _ _))
          · exfalso
            rw [← hval] at h2
            exact h (lt_of_lt_of_le h2 le_rfl)
        · have hpw3 : (p :: rest).Pairwise (fun x y => x.1 < y.1) := by
            rw [List.pairwise_cons]
            rw [List.pairwise_cons] at hpw2
            exact ⟨fun b hb => hphead b (List.mem_cons.mpr (Or.inr hb)), hpw2.2⟩
          exact ih p hpw3 q (List.mem_cons.mpr (Or.inr hq3)) hval

theorem forecastService_ok_inv (P : FeatureVector → ℚ)
    (histStore : String → List HistoricalRecord) (now : ℤ)
    (req : ForecastRequest) (r : ForecastResult)
    (h : forecastService P histStore now req = .ok r) :
    ∃ sd, req.start_date = some sd ∧
      1 ≤ req.horizon_days ∧ req.horizon_days ≤ 90 ∧ req.hospital_id ≠ "" ∧
      r = buildResult P histStore now req sd := by
  cases hsd : req.start_date with
  | none =>
    simp only [forecastService, hsd] at h
    cases h
  | some sd =>
    simp only [forecastService, hsd] at h
    by_cases h1 : req.horizon_days < 1 ∨ 90 < req.horizon_days
    · rw [if_pos h1] at h; cases h
    · rw [if_neg h1] at h
      by_cases h2 : req.hospital_id = ""
      · rw [if_pos h2] at h; cases h
      · rw [if_neg h2] at h
        cases h
        exact ⟨sd, rfl, by omega, by omega, h2, rfl⟩

theorem requestPreds_pairwise_dates (P : FeatureVector → ℚ)
    (histStore : String → List HistoricalRecord) (req : ForecastRequest)
    (sd : ℤ) :
    (requestPreds P histStore req sd).Pairwise (fun a b => a.1 < b.1) := by
  have hmap := runDays_map_fst P ⟨req.pollution_index, req.is_festival, req.is_flu_season⟩
    req.horizon_days.toNat (histStore req.hospital_id) sd
  have hpw : ((requestPreds P histStore req sd).map Prod.fst).Pairwise (· < ·) := by
    rw [requestPreds, hmap]
    exact (List.pairwise_lt_range _).map _ (fun a b hab => by omega)
  rw [List.pairwise_map] at hpw
  exact hpw

/-- C6: every successful forecast has `peak_load` equal to the maximum
`predicted_admissions` over the horizon and `peak_day` equal to the date of
the first day attaining it — on ties the earliest date wins. -/
theorem peak_first_max (P : FeatureVector → ℚ)
    (histStore : String → List HistoricalRecord) (now : ℤ)
    (req : ForecastRequest) (r : ForecastResult)
    (h : forecastService P histStore now req = .ok r) :
    r.predictions ≠ [] ∧
    (∀ day ∈ r.predictions, day.predicted_admissions ≤ r.peak_load) ∧
    ∃ pd, r.peak_day = some pd ∧
      (∃ day ∈ r.predictions, day.date = pd ∧
        day.predicted_admissions = r.peak_load) ∧
      (∀ day ∈ r.predictions, day.predicted_admissions = r.peak_load →
        pd ≤ day.date) := by
  obtain ⟨sd, hsd, hlo, hhi, hid, hr⟩ := forecastService_ok_inv P histStore now req r h
  subst hr
  have hlen : (requestPreds P histStore req sd).length = req.horizon_days.toNat :=
    runDays_length _ _ _ _ _
  have hne : requestPreds P histStore req sd ≠ [] := by
    intro hnil
    rw [hnil] at hlen
    simp at hlen
    omega
  obtain ⟨p, rest, hcons⟩ := List.exists_cons_of_ne_nil hne
  have hpw : (requestPreds P histStore req sd).Pairwise (fun a b => a.1 < b.1) :=
    requestPreds_pairwise_dates P histStore req sd
  rw [hcons] at hpw
  have hpeak : peakOf (requestPreds P histStore req sd) = some (peakFold p rest) := by
    rw [hcons]; rfl
  refine ⟨?_, ?_, ?_⟩
  · show (requestPreds P histStore req sd).map toForecastDay ≠ []
    rw [hcons]
    simp
  · intro day hday
    have hday2 : ∃ q ∈ requestPreds P histStore req sd, toForecastDay q = day := by
      simpa using List.mem_map.mp hday
    obtain ⟨q, hq, rfl⟩ := hday2
    show (toForecastDay q).predicted_admissions ≤
      ((peakOf (requestPreds P histStore req sd)).map Prod.snd).getD 0
    rw [hpeak]
    rw [hcons] at hq
    exact peakFold_ge rest p q hq
  · refine ⟨(peakFold p rest).1, ?_, ?_, ?_⟩
    · show (peakOf (requestPreds P histStore req sd)).map Prod.fst =
        some (peakFold p rest).1
      rw [hpeak]
      rfl
    · refine ⟨toForecastDay (peakFold p rest), ?_, rfl, ?_⟩
      · apply List.mem_map_of_mem
        rw [hcons]
        exact peakFold_mem rest p
      · show (peakFold p rest).2 =
          ((peakOf (requestPreds P histStore req sd)).map Prod.snd).getD 0
        rw [hpeak]
        rfl
    · intro day hday hval
      obtain ⟨q, hq, rfl⟩ : ∃ q ∈ requestPreds P histStore req sd,
          toForecastDay q = day := by
        simpa using List.mem_map.mp hday
      show (peakFold p rest).1 ≤ (toForecastDay q).date
      have hval2 : q.2 = (peakFold p rest).2 := by
        have : (toForecastDay q).predicted_admissions = q.2 := rfl
        rw [this] at hval
        rw [hval]
        show ((peakOf (requestPreds P histStore req sd)).map Prod.snd).getD 0 = _
        rw [hpeak]
        rfl
      rw [hcons] at hq
      exact peakFold_first rest p hpw q hq hval2

/-- Witness for C6: a one-day forecast with a constant predictor succeeds
and its emitted day list is non-empty. -/
theorem peak_first_max_witness :
    (buildResult (fun _ => (5 : ℚ)) (fun _ => []) 0
      ⟨"H", some 0, 1, 120, false, false⟩ 0).predictions ≠ [] :=
  (peak_first_max (fun _ => (5 : ℚ)) (fun _ => []) 0
    ⟨"H", some 0, 1, 120, false, false⟩ _ rfl).1

/-- C4: a malformed `start_date`, a `horizon_days` outside [1, 90], or an
empty `hospital_id` makes the forecast operation fail with a
ValidationError and no partial result, and the outcome is then independent
of the predictor (the predictor is never invoked); on otherwise-valid
requests `horizon_days = 1` and `= 90` succeed while `= 0` and `= 91` raise
ValidationError. -/
theorem validation_before_predictor (P P2 : FeatureVector → ℚ)
    (histStore : String → List HistoricalRecord) (now : ℤ)
    (req : ForecastRequest) :
    (req.start_date = none ∨ req.horizon_days < 1 ∨ 90 < req.horizon_days ∨
        req.hospital_id = "" →
      (∃ msg, forecastService P histStore now req =
        .error (.ValidationError msg)) ∧
      forecastService P histStore now req =
        forecastService P2 histStore now req) ∧
    (req.start_date ≠ none → req.hospital_id ≠ "" →
      ((req.horizon_days = 1 ∨ req.horizon_days = 90) →
        ∃ r, forecastService P histStore now req = .ok r) ∧
      ((req.horizon_days = 0 ∨ req.horizon_days = 91) →
        ∃ msg, forecastService P histStore now req =
          .error (.ValidationError msg))) := by
  constructor
  · intro hbad
    cases hsd : req.start_date with
    | none =>
      have e : forecastService P histStore now req =
          .error (.ValidationError "malformed start_date") := by
        simp only [forecastService, hsd]
      have e2 : forecastService P2 histStore now req =
          .error (.ValidationError "malformed start_date") := by
        simp only [forecastService, hsd]
      exact ⟨⟨"malformed start_date", e⟩, by rw [e, e2]⟩
    | some sd =>
      have hbad2 : req.horizon_days < 1 ∨ 90 < req.horizon_days ∨
          req.hospital_id = "" := by
        rcases hbad with h | h
        · rw [hsd] at h; cases h
        · exact h
      simp only [forecastService, hsd]
      by_cases h1 : req.horizon_days < 1 ∨ 90 < req.horizon_days
      · rw [if_pos h1, if_pos h1]
        exact ⟨⟨"horizon_days outside [1,90]", rfl⟩, rfl⟩
      · rw [if_neg h1, if_neg h1]
        have h2 : req.hospital_id = "" := by tauto
        rw [if_pos h2, if_pos h2]
        exact ⟨⟨"empty hospital_id", rfl⟩, rfl⟩
  · intro hsome hid
    cases hsd : req.start_date with
    | none => exact absurd hsd hsome
    | some sd =>
      constructor
      · intro hok
        simp only [forecastService, hsd]
        rw [if_neg (by omega : ¬(req.horizon_days < 1 ∨ 90 < req.horizon_days)),
          if_neg hid]
        exact ⟨buildResult P histStore now req sd, rfl⟩
      · intro hbad
        simp only [forecastService, hsd]
        rw [if_pos (by omega : req.horizon_days < 1 ∨ 90 < req.horizon_days)]
        exact ⟨"horizon_days outside [1,90]", rfl⟩

/-- Witness for C4: `horizon_days = 0` with a wellformed start date and a
non-empty hospital id raises a ValidationError. -/
theorem validation_before_predictor_witness :
    ∃ msg, forecastService (fun _ => (5 : ℚ)) (fun _ => []) 0
      ⟨"H", some 0, 0, 120, false, false⟩ = .error (.ValidationError msg) :=
  ((validation_before_predictor (fun _ => (5 : ℚ)) (fun _ => (7 : ℚ))
      (fun _ => []) 0 ⟨"H", some 0, 0, 120, false, false⟩).2
    (by simp) (by simp)).2 (Or.inl rfl)

/-- C7: the forecast operation is deterministic — two invocations with equal
request fields, equal History Store contents, equal predictor, and equal
generation clock yield identical results, field for field. -/
theorem deterministic_forecast (P1 P2 : FeatureVector → ℚ)
    (s1 s2 : String → List HistoricalRecord) (now1 now2 : ℤ)
    (req1 req2 : ForecastRequest)
    (hP : P1 = P2) (hs : s1 = s2) (hn : now1 = now2) (hr : req1 = req2) :
    forecastService P1 s1 now1 req1 = forecastService P2 s2 now2 req2 ∧
    (∀ r1 r2, forecastService P1 s1 now1 req1 = .ok r1 →
      forecastService P2 s2 now2 req2 = .ok r2 →
      r1.hospital_id = r2.hospital_id ∧ r1.forecast_date = r2.forecast_date ∧
      r1.predictions = r2.predictions ∧ r1.peak_day = r2.peak_day ∧
      r1.peak_load = r2.peak_load ∧ r1.summary = r2.summary) := by
  subst hP hs hn hr
  refine ⟨rfl, ?_⟩
  intro r1 r2 e1 e2
  rw [e1] at e2
  cases e2
  exact ⟨rfl, rfl, rfl, rfl, rfl, rfl⟩

/-- Witness for C7 at a concrete predictor, store, clock, and request. -/
theorem deterministic_forecast_witness :
    forecastService (fun _ => (5 : ℚ)) (fun _ => []) 0
        ⟨"H", some 0, 1, 120, false, false⟩ =
      forecastService (fun _ => (5 : ℚ)) (fun _ => []) 0
        ⟨"H", some 0, 1, 120, false, false⟩ :=
  (deterministic_forecast (fun _ => (5 : ℚ)) (fun _ => (5 : ℚ))
    (fun _ => []) (fun _ => []) 0 0
    ⟨"H", some 0, 1, 120, false, false⟩ ⟨"H", some 0, 1, 120, false, false⟩
    rfl rfl rfl rfl).1

theorem lastN_length (adm : List ℚ) (w : ℕ) :
    (lastN adm w).length = adm.length - (adm.length - w) := by
  rw [lastN, List.length_drop]

/-- C8: on any non-empty working history the Feature Builder totally
succeeds — `lag_k` always yields a value: the entry exactly `k` days back
when `k` prior days exist, the earliest available value otherwise; the
rolling windows are non-empty suffixes of at most `w` trailing days, the
rolling mean is the arithmetic mean over that window, and the rolling
variance (the square of the population standard deviation) is the mean of
the squared deviations over that window — so short histories never fail. -/
theorem feature_builder_total (hist : List HistoricalRecord) (d : ℤ)
    (ctx : ContextFlags) (adm : List ℚ) (k w : ℕ)
    (hadm : adm = hist.map (fun r => r.admissions)) (hne : hist ≠ [])
    (hk : 1 ≤ k) (hw : 1 ≤ w) :
    (∃ v, lagK adm k = some v) ∧
    (adm.length < k → lagK adm k = adm.head?) ∧
    (k ≤ adm.length → lagK adm k = adm[adm.length - k]?) ∧
    (lastN adm w).IsSuffix adm ∧
    (1 ≤ (lastN adm w).length ∧ (lastN adm w).length ≤ w) ∧
    rollingMean adm w * (lastN adm w).length = (lastN adm w).sum ∧
    rollingVar adm w * (lastN adm w).length =
      ((lastN adm w).map (fun a => (a - rollingMean adm w) ^ 2)).sum ∧
    (buildFeatures hist d ctx).lag_1 = (lagK adm 1).getD 0 ∧
    (buildFeatures hist d ctx).lag_7 = (lagK adm 7).getD 0 ∧
    (buildFeatures hist d ctx).rolling_7_mean = rollingMean adm 7 ∧
    (buildFeatures hist d ctx).rolling_7_var = rollingVar adm 7 ∧
    (buildFeatures hist d ctx).rolling_30_mean = rollingMean adm 30 := by
  have hlenpos : 1 ≤ adm.length := by
    rw [hadm, List.length_map]
    exact List.length_pos.mpr hne
  have hwin : 1 ≤ (lastN adm w).length ∧ (lastN adm w).length ≤ w := by
    rw [lastN_length]
    omega
  have hwinnz : ((lastN adm w).length : ℚ) ≠ 0 := by
    exact_mod_cast Nat.one_le_iff_ne_zero.mp hwin.1
  refine ⟨?_, ?_, ?_, ?_, hwin, ?_, ?_, ?_, ?_, ?_, ?_, ?_⟩
  · rw [lagK]
    split_ifs with h
    · have hidx : adm.length - k < adm.length := by omega
      exact ⟨adm[adm.length - k], List.getElem?_eq_getElem hidx⟩
    · have : adm ≠ [] := by
        intro hnil
        rw [hnil] at hlenpos
        simp at hlenpos
      obtain ⟨a, t, rfl⟩ := List.exists_cons_of_ne_nil this
      exact ⟨a, rfl⟩
  · intro hlt
    rw [lagK, if_neg (by omega)]
  · intro hge
    rw [lagK, if_pos hge]
  · exact List.drop_suffix _ _
  · rw [rollingMean]
    exact div_mul_cancel₀ _ hwinnz
  · rw [rollingVar, rollingMean]
    exact div_mul_cancel₀ _ hwinnz
  · rw [buildFeatures, hadm]
  · rw [buildFeatures, hadm]
  · rw [buildFeatures, hadm]
  · rw [buildFeatures, hadm]
  · rw [buildFeatures, hadm]

/-- Witness for C8: a single-day history, `k = 7`, `w = 7` — `lag_7` still
yields a value. -/
theorem feature_builder_total_witness :
    ∃ v, lagK (([⟨0, 90, 50, false, false⟩] :
        List HistoricalRecord).map (fun r => r.admissions)) 7 = some v :=
  (feature_builder_total [⟨0, 90, 50, false, false⟩] 1 ⟨50, false, false⟩
    (([⟨0, 90, 50, false, false⟩] : List HistoricalRecord).map
      (fun r => r.admissions)) 7 7 rfl (by simp) (by norm_num) (by norm_num)).1

/-- C9: in the Demand Analysis component, when `forecast_data` is present
but empty, `getTotalPredictedDemand` and `getAverageDailyDemand` return 0,
while `getPeakDemand` returns `-Infinity` (`⊥`, JavaScript
`Math.max()` of no arguments): its guard only rules out a null/undefined
`forecast_data`, not an empty one. -/
theorem demand_helpers_empty_list (r : DemandResult)
    (h : r.forecast_data = some []) :
    getTotalPredictedDemand (some r) = 0 ∧
    getAverageDailyDemand (some r) = 0 ∧
    getPeakDemand (some r) = ⊥ := by
  refine ⟨?_, ?_, ?_⟩
  · rw [getTotalPredictedDemand, h]
    rfl
  · rw [getAverageDailyDemand, h]
    rfl
  · rw [getPeakDemand, h]
    rfl

/-- Witness for C9 on the concrete result whose `forecast_data` is `[]`. -/
theorem demand_helpers_empty_list_witness :
    getTotalPredictedDemand (some ⟨some []⟩) = 0 ∧
    getAverageDailyDemand (some ⟨some []⟩) = 0 ∧
    getPeakDemand (some ⟨some []⟩) = ⊥ :=
  demand_helpers_empty_list ⟨some []⟩ rfl

/-- C10: in the Predictive Outbreak component, a manual-format submission
whose parsed cases list has fewer than 14 rows sets the error
"Need at least 14 days of data for outbreak analysis" and never issues the
POST; the POST is issued exactly when at least 14 parsed rows exist. -/
theorem outbreak_min_rows (casesData aqiData : List Char) (l : List CaseEntry)
    (h : parseManualEntries aqiData (manualLines casesData) 0 = .ok l) :
    (l.length < 14 → handleSubmitManual casesData aqiData =
      .errorSet "Need at least 14 days of data for outbreak analysis") ∧
    (14 ≤ l.length → handleSubmitManual casesData aqiData = .postIssued l) ∧
    (∀ l2, handleSubmitManual casesData aqiData = .postIssued l2 →
      14 ≤ l2.length) := by
  unfold handleSubmitManual
  rw [h]
  dsimp only
  refine ⟨?_, ?_, ?_⟩
  · intro hlt
    rw [if_pos hlt]
  · intro hge
    rw [if_neg (by omega)]
  · intro l2 hpost
    by_cases hc : l.length < 14
    · rw [if_pos hc] at hpost
      cases hpost
    · rw [if_neg hc] at hpost
      cases hpost
      omega

/-- Witness for C10: a single parsed row is rejected with the
minimum-data error. -/
theorem outbreak_min_rows_witness :
    handleSubmitManual "2025-08-01,45".toList [] =
      .errorSet "Need at least 14 days of data for outbreak analysis" :=
  (outbreak_min_rows "2025-08-01,45".toList []
    [⟨"2025-08-01".toList, some 45, none⟩] (by decide)).1 (by norm_num)

end MedIntel
